import Mathlib

/-!
Shallow embedding of the tabular accumulation core of `streamlit_app.py`
(functions `read_df`, `in_window`, `to_number_series`, `summarize_frames`),
together with theorems settling the frozen claims about it.

A pandas cell is modelled by `Cell`: a raw string, a parsed number (ℚ),
a parsed timestamp (`Int`, an abstract epoch value), or missing (NaN/NaT).
A DataFrame is a `Table`: an ordered column-name list and rows of cells,
each row aligned positionally with the column list.
-/

namespace GSheet

/-- A pandas cell: raw string, numeric value, timestamp, or missing (NaN/NaT). -/
inductive Cell where
  | str (s : String)
  | num (q : ℚ)
  | date (t : Int)
  | missing
deriving DecidableEq, Repr

/-- A DataFrame row: cells aligned positionally with the column list. -/
abbrev Row := List Cell

/-- A pandas DataFrame: ordered column names plus rows of cells. -/
structure Table where
  cols : List String
  rows : List Row
deriving DecidableEq, Repr

/-- The distinct error exits of `summarize_frames`: the three explicit
`ValueError` raises (schema mismatch, missing key column, missing date
column) and the `ValueError` pandas itself raises from
`groupby([], dropna=False)` when the key list is empty. -/
inductive SummarizeError where
  | schemaMismatch (idx : Nat) (expected actual : List String)
  | missingKeyCol (k : String) (cols : List String)
  | missingDateCol (d : String) (cols : List String)
  | noGroupKeys
deriving DecidableEq, Repr

/-- Decidable equality of run results, for evaluating the pipeline on
concrete inputs. -/
instance decEqExcept {ε α : Type} [DecidableEq ε] [DecidableEq α] :
    DecidableEq (Except ε α) := fun x y =>
  match x, y with
  | .ok a, .ok b =>
      if h : a = b then isTrue (by rw [h])
      else isFalse (fun hc => h (by injection hc))
  | .error a, .error b =>
      if h : a = b then isTrue (by rw [h])
      else isFalse (fun hc => h (by injection hc))
  | .ok _, .error _ => isFalse (fun hc => Except.noConfusion hc)
  | .error _, .ok _ => isFalse (fun hc => Except.noConfusion hc)

/-- Look up a cell by column name: first matching column position, as
pandas `df[c]` selects the first occurrence of a label; absent column or
short row reads as missing. -/
def getCell : List String → Row → String → Cell
  | [], _, _ => .missing
  | _ :: _, [], _ => .missing
  | col :: cols, v :: vs, c => if col = c then v else getCell cols vs c

/-- Rewrite each cell of a row by a function of its column name,
modelling column-wise assignment `df[c] = ...` applied positionally. -/
def mapCols (f : String → Cell → Cell) : List String → Row → Row
  | [], _ => []
  | _ :: _, [] => []
  | col :: cols, v :: vs => f col v :: mapCols f cols vs

/-- Python `str.strip()` whitespace test (ASCII whitespace characters). -/
def isPySpace (c : Char) : Bool :=
  c = ' ' || c = '\t' || c = '\n' || c = '\r' || c = '\x0b' || c = '\x0c'

/-- Python `str.strip()`: drop leading and trailing whitespace. -/
def pyStrip (s : String) : String :=
  ⟨((s.data.dropWhile isPySpace).reverse.dropWhile isPySpace).reverse⟩

/-- `read_df`: build a table from a worksheet's records, normalizing the
column names by stripping surrounding whitespace
(`df.columns = [str(c).strip() for c in df.columns]`). -/
def read_df (headers : List String) (records : List Row) : Table :=
  ⟨headers.map pyStrip, records⟩

/-- `in_window`: `pd.isna(d)` gives `False`; otherwise the half-open test
`start <= d and d < end`. `none` stands for NaT. -/
def in_window (d : Option Int) (start e : Int) : Bool :=
  match d with
  | none => false
  | some t => decide (start ≤ t) && decide (t < e)

/-- Digits of a numeral to its value. -/
def digitsToNat (l : List Char) : Nat :=
  l.foldl (fun a c => a * 10 + (c.toNat - 48)) 0

/-- An unsigned numeral: all digits, optionally with one decimal point
(`"1000"`, `"3.5"`, `"1."`, `".5"`); anything else fails. -/
def parseUnsigned (l : List Char) : Option ℚ :=
  match l.splitOn '.' with
  | [a] => if a.all (·.isDigit) && !a.isEmpty then some (digitsToNat a) else none
  | [a, b] =>
      if a.all (·.isDigit) && b.all (·.isDigit) && !(a.isEmpty && b.isEmpty) then
        some ((digitsToNat a : ℚ) + (digitsToNat b : ℚ) / ((10 : ℚ) ^ b.length))
      else none
  | _ => none

/-- Modelled from pandas: `pd.to_numeric(·, errors="coerce")` on one string,
restricted to plain decimal numerals with an optional sign and surrounding
whitespace; a failed parse is `none` (NaN). -/
def parseNumber (s : String) : Option ℚ :=
  match (pyStrip s).data with
  | '-' :: rest => (parseUnsigned rest).map (fun q => -q)
  | '+' :: rest => parseUnsigned rest
  | l => parseUnsigned l

/-- Remove every comma, modelling `.str.replace(",", "", regex=False)`. -/
def stripCommas (s : String) : String :=
  ⟨s.data.filter (fun c => c ≠ ',')⟩

/-- `to_number_series`, element-wise: `pd.to_numeric(s.astype(str)
.str.replace(",", ""), errors="coerce")` on one cell. A cell already
numeric round-trips through its string form to the same number; a
timestamp's string form and NaN's string form (`"nan"`) do not parse. -/
def to_number (c : Cell) : Option ℚ :=
  match c with
  | .str s => parseNumber (stripCommas s)
  | .num q => some q
  | .date _ => none
  | .missing => none

/-- Wrap the result of date parsing: NaT is a missing cell. -/
def parsedCell (o : Option Int) : Cell :=
  match o with
  | some t => .date t
  | none => .missing

/-- Read a converted date cell back as an optional timestamp. -/
def asDate (c : Cell) : Option Int :=
  match c with
  | .date t => some t
  | _ => none

/-- `all_df[date_col] = pd.to_datetime(all_df[date_col], errors="coerce")`:
replace the date column's cells by their parsed timestamps (`pdate` is the
date parser, abstracting `pd.to_datetime` on one cell). -/
def dateConvert (base : List String) (date_col : String) (pdate : Cell → Option Int)
    (rows : List Row) : List Row :=
  rows.map (mapCols (fun c v => if c = date_col then parsedCell (pdate v) else v) base)

/-- `all_df = all_df[mask]` where `mask` applies `in_window` to the
(already converted) date column. -/
def filterWindow (base : List String) (date_col : String) (start e : Int)
    (rows : List Row) : List Row :=
  rows.filter (fun r => in_window (asDate (getCell base r date_col)) start e)

/-- The concatenated, date-converted, window-filtered rows of the pipeline
(lines 92-95 of the source). -/
def filteredOf (pdate : Cell → Option Int) (base : List String) (date_col : String)
    (start e : Int) (frames : List Table) : List Row :=
  filterWindow base date_col start e
    (dateConvert base date_col pdate (frames.flatMap (·.rows)))

/-- `non_keys`: columns that are neither key columns nor the date column. -/
def nonKeyCols (base : List String) (key_cols : List String) (date_col : String) :
    List String :=
  base.filter (fun c => ¬ (c ∈ key_cols ∨ c = date_col))

/-- `numeric_cols`: the non-key, non-date columns in which at least one
cell of the filtered table parses as a number (`cand.notna().any()`). -/
def numericCols (base : List String) (key_cols : List String) (date_col : String)
    (rows : List Row) : List String :=
  (nonKeyCols base key_cols date_col).filter
    (fun c => rows.any (fun r => (to_number (getCell base r c)).isSome))

/-- `all_df[c] = cand` for each classified-numeric column: its cells become
the parsed number or missing; all other columns are untouched. -/
def coerceRows (base : List String) (numeric : List String) (rows : List Row) :
    List Row :=
  rows.map (mapCols (fun c v =>
    if c ∈ numeric then
      match to_number v with
      | some q => .num q
      | none => .missing
    else v) base)

/-- The tuple of key-column values of a row, the group identity used by
`groupby(key_cols, dropna=False)`. -/
def keyOf (base : List String) (key_cols : List String) (r : Row) : List Cell :=
  key_cols.map (getCell base r)

/-- Sum of the non-missing numeric values of a list of cells: pandas
`"sum"` aggregation, skipping NaN, with an all-NaN group summing to 0. -/
def sumNonMissing (cells : List Cell) : ℚ :=
  (cells.filterMap (fun c =>
    match c with
    | .num q => some q
    | _ => none)).sum

/-- `groupby(key_cols, dropna=False).agg({c: "sum"}).reset_index()`: one
row per distinct key tuple (missing key values compare equal, so all-missing
tuples form one group), each row being the key cells followed by the
per-column sums over that group. -/
def aggRows (base : List String) (key_cols : List String) (numeric : List String)
    (rows : List Row) : List Row :=
  ((rows.map (keyOf base key_cols)).dedup).map (fun k =>
    k ++ numeric.map (fun c =>
      Cell.num (sumNonMissing
        ((rows.filter (fun r => keyOf base key_cols r = k)).map
          (fun r => getCell base r c)))))

/-- `out.reindex(columns=ordered)`: select columns by name in the given
order; a requested column absent from the table reads as missing. -/
def reindex (t : Table) (newCols : List String) : Table :=
  ⟨newCols, t.rows.map (fun r => newCols.map (getCell t.cols r))⟩

/-- `summarize_frames`: validate schemas against the first frame's columns,
check the key and date columns exist, concatenate, convert and filter by
the date window, classify and coerce numeric columns, group by the key
columns summing numeric columns, and reorder columns to keys first then
numeric columns in template order. `pdate` abstracts `pd.to_datetime`
applied to one cell with `errors="coerce"`. -/
def summarize_frames (pdate : Cell → Option Int) (frames : List Table)
    (key_cols : List String) (date_col : String) (start e : Int) :
    Except SummarizeError (Table × List String) :=
  match frames with
  | [] => .ok (⟨[], []⟩, [])
  | f0 :: rest =>
    let base_cols := f0.cols
    match validateSchemas base_cols rest 2 with
    | .error er => .error er
    | .ok _ =>
      match checkKeys base_cols key_cols with
      | .error er => .error er
      | .ok _ =>
        if date_col ∈ base_cols then
          let filtered := filteredOf pdate base_cols date_col start e (f0 :: rest)
          if filtered.isEmpty then .ok (⟨key_cols, []⟩, base_cols)
          else
            let numeric := numericCols base_cols key_cols date_col filtered
            let coerced := coerceRows base_cols numeric filtered
            if key_cols.isEmpty then .error .noGroupKeys
            else
              let out : Table := ⟨key_cols ++ numeric,
                aggRows base_cols key_cols numeric coerced⟩
              let ordered := key_cols ++
                base_cols.filter (fun c => c ∈ numeric ∧ c ∉ key_cols)
              .ok (reindex out ordered, base_cols)
        else .error (.missingDateCol date_col base_cols)
where
  /-- The header-consistency loop: each later frame's column list must equal
  the template; the first mismatch raises with the 1-based sheet number
  (`enumerate(frames[1:], start=2)`). -/
  validateSchemas (base : List String) : List Table → Nat → Except SummarizeError Unit
    | [], _ => .ok ()
    | f :: fs, i =>
        if f.cols = base then validateSchemas base fs (i + 1)
        else .error (.schemaMismatch i base f.cols)
  /-- The key-column presence loop: the first configured key column missing
  from the template raises. -/
  checkKeys (base : List String) : List String → Except SummarizeError Unit
    | [] => .ok ()
    | k :: ks => if k ∈ base then checkKeys base ks else .error (.missingKeyCol k base)

/-- A concrete date parser for closed instantiations: an integer-valued
string is read as a timestamp, anything else is NaT. -/
def intDate (c : Cell) : Option Int :=
  match c with
  | .str s => (parseNumber s).bind (fun q => if q.den = 1 then some q.num else none)
  | .date t => some t
  | _ => none

/-! ## Helper lemmas -/

/-- Reading a column of a rewritten row gives the rewrite of the original
cell, provided the column exists and the row is wide enough. -/
lemma getCell_mapCols (f : String → Cell → Cell) :
    ∀ (cols : List String) (row : Row) (c : String),
      c ∈ cols → cols.length ≤ row.length →
      getCell cols (mapCols f cols row) c = f c (getCell cols row c) := by
  intro cols
  induction cols with
  | nil => intro row c hc _; simp at hc
  | cons col cols ih =>
    intro row c hc hlen
    match row with
    | [] => simp at hlen
    | v :: vs =>
      simp only [mapCols, getCell]
      by_cases h : col = c
      · simp [h]
      · simp only [if_neg h]
        have hc' : c ∈ cols := by
          rcases List.mem_cons.mp hc with h1 | h1
          · exact absurd h1.symm h
          · exact h1
        exact ih vs c hc' (by simpa using Nat.le_of_succ_le_succ hlen)

/-- Reading back a converted date cell recovers the parse result. -/
lemma asDate_parsedCell (o : Option Int) : asDate (parsedCell o) = o := by
  cases o <;> rfl

/-! ## C4: half-open time-window filtering -/

/-- C4: after the date column is converted, a row survives the window
filter exactly when its original date value parses to a timestamp `t` with
`start ≤ t < end`; rows whose dates fail to parse are dropped, and the
boundary is half-open (for `o = some t`, kept iff `start ≤ t` and `t < end`). -/
theorem timeFilter_keeps_iff (base : List String) (dcol : String)
    (pdate : Cell → Option Int) (s e : Int) (rows : List Row)
    (hw : ∀ r ∈ rows, base.length ≤ r.length) (hd : dcol ∈ base) :
    filterWindow base dcol s e (dateConvert base dcol pdate rows)
      = dateConvert base dcol pdate
          (rows.filter (fun r => in_window (pdate (getCell base r dcol)) s e))
    ∧ ∀ o : Option Int, in_window o s e = true ↔ ∃ t, o = some t ∧ s ≤ t ∧ t < e := by
  constructor
  · unfold filterWindow dateConvert
    rw [List.filter_map]
    congr 1
    apply List.filter_congr
    intro r hr
    have h := getCell_mapCols
      (fun c v => if c = dcol then parsedCell (pdate v) else v)
      base r dcol hd (hw r hr)
    simp only [Function.comp_apply, h, if_pos rfl, if_true, asDate_parsedCell]
  · intro o
    cases o with
    | none => simp [in_window]
    | some t => simp [in_window, and_assoc]

/-- Concrete instantiation of `timeFilter_keeps_iff`: one column `d`, window
`[3, 7)`; rows dated `3` (at start), `7` (at end), and unparseable — only
the row at `start` is kept. -/
theorem timeFilter_keeps_iff_witness :
    (filterWindow ["d"] "d" 3 7
        (dateConvert ["d"] "d" intDate
          [[Cell.str "3"], [Cell.str "7"], [Cell.str "zz"]])
      = dateConvert ["d"] "d" intDate
          (([[Cell.str "3"], [Cell.str "7"], [Cell.str "zz"]] : List Row).filter
            (fun r => in_window (intDate (getCell ["d"] r "d")) 3 7))
      ∧ ∀ o : Option Int, in_window o 3 7 = true ↔ ∃ t, o = some t ∧ 3 ≤ t ∧ t < 7)
    ∧ filterWindow ["d"] "d" 3 7
        (dateConvert ["d"] "d" intDate
          [[Cell.str "3"], [Cell.str "7"], [Cell.str "zz"]]) = [[Cell.date 3]] :=
  ⟨timeFilter_keeps_iff ["d"] "d" intDate 3 7
      [[Cell.str "3"], [Cell.str "7"], [Cell.str "zz"]]
      (by decide) (by decide),
    by decide⟩

/-! ## C1: grouped summation -/

/-- Every group key of the aggregation has the key-column arity. -/
lemma keyOf_length (base keys : List String) (r : Row) :
    (keyOf base keys r).length = keys.length := by
  simp [keyOf]

/-- Each aggregated row is its group key followed by the per-column sums. -/
lemma aggRows_take (base keys numeric : List String) (rows : List Row) :
    (aggRows base keys numeric rows).map (fun r => r.take keys.length)
      = (rows.map (keyOf base keys)).dedup := by
  unfold aggRows
  rw [List.map_map]
  have h : ∀ k ∈ (rows.map (keyOf base keys)).dedup,
      ((fun r => r.take keys.length) ∘ fun k => k ++ numeric.map (fun c =>
        Cell.num (sumNonMissing
          ((rows.filter (fun r => keyOf base keys r = k)).map
            (fun r => getCell base r c))))) k = id k := by
    intro k hk
    have hk' : k ∈ rows.map (keyOf base keys) := List.mem_dedup.mp hk
    rcases List.mem_map.mp hk' with ⟨x, _, rfl⟩
    simp only [Function.comp_apply, id_eq]
    exact List.take_left' (keyOf_length base keys x)
  rw [List.map_congr_left h, List.map_id]

/-- C1: with a non-empty key-column list, the aggregation emits exactly one
output row per distinct key tuple occurring in the input (missing key
values compare equal, so all-missing tuples form one group rather than
being dropped); each output row is its group's key values unchanged,
followed by, for every numeric column, the sum of that column's
non-missing values over the group's rows — always a number, so a group
with zero non-missing values in a column sums to 0, not missing. -/
theorem aggregation_partitions (base keys numeric : List String) (rows : List Row)
    (_hk : keys ≠ []) :
    ((aggRows base keys numeric rows).map (fun r => r.take keys.length)
        = (rows.map (keyOf base keys)).dedup)
    ∧ ((aggRows base keys numeric rows).map (fun r => r.take keys.length)).Nodup
    ∧ ∀ r ∈ aggRows base keys numeric rows,
        r = r.take keys.length ++ numeric.map (fun c =>
          Cell.num (sumNonMissing
            ((rows.filter (fun x => keyOf base keys x = r.take keys.length)).map
              (fun x => getCell base x c)))) := by
  refine ⟨aggRows_take base keys numeric rows, ?_, ?_⟩
  · rw [aggRows_take]
    exact List.nodup_dedup _
  · intro r hr
    unfold aggRows at hr
    rcases List.mem_map.mp hr with ⟨k, hkmem, rfl⟩
    have hk' : k ∈ rows.map (keyOf base keys) := List.mem_dedup.mp hkmem
    rcases List.mem_map.mp hk' with ⟨x, _, rfl⟩
    rw [List.take_left' (keyOf_length base keys x)]

/-- Example rows for concrete instantiations: keys `x`, `x`, `y` and two
rows whose key cell is missing. -/
def exRows : List Row :=
  [[Cell.str "x", Cell.num 10], [Cell.str "x", Cell.num 20],
   [Cell.str "y", Cell.num 5], [Cell.missing, Cell.num 3],
   [Cell.missing, Cell.num 4]]

/-- Concrete instantiation of `aggregation_partitions`: grouping `exRows`
by `k` — one output row per distinct key, the two missing keys forming a
single group. -/
theorem aggregation_partitions_witness :
    (["k"] : List String) ≠ []
    ∧ (aggRows ["k", "v"] ["k"] ["v"] exRows).map
        (fun r => r.take (["k"] : List String).length)
      = (exRows.map (keyOf ["k", "v"] ["k"])).dedup :=
  ⟨by decide, (aggregation_partitions ["k", "v"] ["k"] ["v"] exRows (by decide)).1⟩

/-! ## C9: permutation invariance of the aggregation -/

/-- C9: aggregating a permutation of the rows yields a permutation of the
aggregated rows — the same set of output rows with the same group sums. -/
theorem agg_perm_invariant (base keys numeric : List String)
    {rows₁ rows₂ : List Row} (hp : rows₁.Perm rows₂) :
    (aggRows base keys numeric rows₁).Perm (aggRows base keys numeric rows₂) := by
  unfold aggRows
  have hsum : ∀ (k : List Cell) (c : String),
      sumNonMissing ((rows₁.filter (fun r => keyOf base keys r = k)).map
        (fun r => getCell base r c))
        = sumNonMissing ((rows₂.filter (fun r => keyOf base keys r = k)).map
            (fun r => getCell base r c)) := by
    intro k c
    have hperm : ((rows₁.filter (fun r => keyOf base keys r = k)).map
        (fun r => getCell base r c)).Perm
        ((rows₂.filter (fun r => keyOf base keys r = k)).map
          (fun r => getCell base r c)) :=
      (hp.filter _).map _
    unfold sumNonMissing
    exact (hperm.filterMap _).sum_eq
  have hfun : (fun k => k ++ numeric.map (fun c =>
      Cell.num (sumNonMissing ((rows₁.filter (fun r => keyOf base keys r = k)).map
        (fun r => getCell base r c)))))
      = (fun k => k ++ numeric.map (fun c =>
        Cell.num (sumNonMissing ((rows₂.filter (fun r => keyOf base keys r = k)).map
          (fun r => getCell base r c))))) := by
    funext k
    congr 1
    exact List.map_congr_left (fun c _ => by rw [hsum k c])
  rw [hfun]
  exact ((hp.map (keyOf base keys)).dedup).map _

/-- Concrete instantiation of `agg_perm_invariant`: the spec's example rows
in two different orders aggregate to permutations of each other, with the
group sums `x ↦ 30`, `y ↦ 5`. -/
theorem agg_perm_invariant_witness :
    (aggRows ["k", "v"] ["k"] ["v"]
        [[Cell.str "x", Cell.num 10], [Cell.str "x", Cell.num 20],
         [Cell.str "y", Cell.num 5]]).Perm
      (aggRows ["k", "v"] ["k"] ["v"]
        [[Cell.str "y", Cell.num 5], [Cell.str "x", Cell.num 20],
         [Cell.str "x", Cell.num 10]])
    ∧ aggRows ["k", "v"] ["k"] ["v"]
        [[Cell.str "x", Cell.num 10], [Cell.str "x", Cell.num 20],
         [Cell.str "y", Cell.num 5]]
      = [[Cell.str "x", Cell.num 30], [Cell.str "y", Cell.num 5]] :=
  ⟨agg_perm_invariant ["k", "v"] ["k"] ["v"] (by decide),
   by
     simp +decide [aggRows, keyOf, getCell, sumNonMissing, List.dedup,
       List.pwFilter, List.filterMap, List.sum, Function.comp]
     norm_num⟩

/-! ## C3: numeric coercion -/

/-- C3: a non-key, non-date column is classified numeric exactly when at
least one of its values parses as a number after comma-stripping; in a
classified-numeric column every value is replaced by its parsed number, or
by missing where parsing failed, while a non-numeric column keeps its
original values. -/
theorem coercion_classifies (base keys : List String) (dcol : String)
    (rows : List Row) (c : String)
    (hw : ∀ r ∈ rows, base.length ≤ r.length) (hc : c ∈ base)
    (hk : c ∉ keys) (hd : c ≠ dcol) :
    (c ∈ numericCols base keys dcol rows ↔
      ∃ r ∈ rows, (to_number (getCell base r c)).isSome)
    ∧ (c ∈ numericCols base keys dcol rows →
        (coerceRows base (numericCols base keys dcol rows) rows).map
            (fun r => getCell base r c)
          = rows.map (fun r =>
              match to_number (getCell base r c) with
              | some q => Cell.num q
              | none => Cell.missing))
    ∧ (c ∉ numericCols base keys dcol rows →
        (coerceRows base (numericCols base keys dcol rows) rows).map
            (fun r => getCell base r c)
          = rows.map (fun r => getCell base r c)) := by
  have key : ∀ r ∈ rows,
      getCell base (mapCols (fun c' v =>
        if c' ∈ numericCols base keys dcol rows then
          match to_number v with
          | some q => Cell.num q
          | none => Cell.missing
        else v) base r) c
        = (if c ∈ numericCols base keys dcol rows then
            match to_number (getCell base r c) with
            | some q => Cell.num q
            | none => Cell.missing
          else getCell base r c) :=
    fun r hr => getCell_mapCols _ base r c hc (hw r hr)
  refine ⟨?_, ?_, ?_⟩
  · simp [numericCols, nonKeyCols, List.mem_filter, List.any_eq_true, hc, hk, hd]
  · intro hmem
    unfold coerceRows
    rw [List.map_map]
    apply List.map_congr_left
    intro r hr
    simp only [Function.comp_apply, key r hr, if_pos hmem]
  · intro hmem
    unfold coerceRows
    rw [List.map_map]
    apply List.map_congr_left
    intro r hr
    simp only [Function.comp_apply, key r hr, if_neg hmem]

/-- Concrete instantiation of `coercion_classifies` on the spec's example
column `["1,000", "abc", "2000"]`: it is classified numeric and its values
coerce to `[1000, missing, 2000]`. -/
theorem coercion_classifies_witness :
    ((∀ r ∈ ([[Cell.str "1,000"], [Cell.str "abc"], [Cell.str "2000"]] : List Row),
        (["x"] : List String).length ≤ r.length)
      ∧ "x" ∈ (["x"] : List String) ∧ "x" ∉ ([] : List String) ∧ "x" ≠ "d")
    ∧ ("x" ∈ numericCols ["x"] [] "d"
          [[Cell.str "1,000"], [Cell.str "abc"], [Cell.str "2000"]] ↔
        ∃ r ∈ ([[Cell.str "1,000"], [Cell.str "abc"], [Cell.str "2000"]] : List Row),
          (to_number (getCell ["x"] r "x")).isSome)
    ∧ numericCols ["x"] [] "d"
        [[Cell.str "1,000"], [Cell.str "abc"], [Cell.str "2000"]] = ["x"]
    ∧ coerceRows ["x"]
        (numericCols ["x"] [] "d"
          [[Cell.str "1,000"], [Cell.str "abc"], [Cell.str "2000"]])
        [[Cell.str "1,000"], [Cell.str "abc"], [Cell.str "2000"]]
      = [[Cell.num 1000], [Cell.missing], [Cell.num 2000]] :=
  ⟨⟨by decide, by decide, by decide, by decide⟩,
   (coercion_classifies ["x"] [] "d"
      [[Cell.str "1,000"], [Cell.str "abc"], [Cell.str "2000"]] "x"
      (by decide) (by decide) (by decide) (by decide)).1,
   by decide, by decide⟩

/-! ## C2: schema validation fails at the first mismatching source -/

/-- The validation loop, started at counter `i`, rejects the first frame
whose columns differ from the template, reporting `pre.length + i`. -/
lemma validateSchemas_first_mismatch (base : List String) (bad : Table)
    (suf : List Table) (hbad : bad.cols ≠ base) :
    ∀ (pre : List Table) (i : Nat), (∀ f ∈ pre, f.cols = base) →
      summarize_frames.validateSchemas base (pre ++ bad :: suf) i
        = .error (.schemaMismatch (pre.length + i) base bad.cols) := by
  intro pre
  induction pre with
  | nil =>
    intro i _
    simp [summarize_frames.validateSchemas, hbad]
  | cons p pre ih =>
    intro i hpre
    have hp : p.cols = base := hpre p (List.mem_cons_self p pre)
    have hrest : ∀ f ∈ pre, f.cols = base := fun f hf => hpre f (List.mem_cons_of_mem p hf)
    simp only [List.cons_append, summarize_frames.validateSchemas, if_pos hp,
      List.length_cons, List.append_eq]
    rw [ih (i + 1) hrest,
      show pre.length + (i + 1) = pre.length + 1 + i from by omega]

/-- C2: with the first frame's columns as template, if every frame in `pre`
matches the template and `bad` does not, the run fails with a schema
mismatch identifying the 1-based source index of `bad` (`pre.length + 2`),
the expected column list, and the actual column list. -/
theorem schema_first_mismatch (pdate : Cell → Option Int) (f0 bad : Table)
    (pre suf : List Table) (keys : List String) (dcol : String) (s e : Int)
    (hpre : ∀ f ∈ pre, f.cols = f0.cols) (hbad : bad.cols ≠ f0.cols) :
    summarize_frames pdate (f0 :: (pre ++ bad :: suf)) keys dcol s e
      = .error (.schemaMismatch (pre.length + 2) f0.cols bad.cols) := by
  simp only [summarize_frames,
    validateSchemas_first_mismatch f0.cols bad suf hbad pre 2 hpre]

/-- Concrete instantiation of `schema_first_mismatch` on the spec's
example: column lists `[A,B]`, `[A,B]`, `[A,C]` fail identifying source #3
with expected `[A,B]` and actual `[A,C]`. -/
theorem schema_first_mismatch_witness :
    ((∀ f ∈ ([⟨["A", "B"], []⟩] : List Table), f.cols = (["A", "B"] : List String))
      ∧ (["A", "C"] : List String) ≠ ["A", "B"])
    ∧ summarize_frames intDate
        [⟨["A", "B"], []⟩, ⟨["A", "B"], []⟩, ⟨["A", "C"], []⟩] ["A"] "B" 0 1
      = .error (.schemaMismatch 3 ["A", "B"] ["A", "C"]) :=
  ⟨⟨by decide, by decide⟩,
   schema_first_mismatch intDate ⟨["A", "B"], []⟩ ⟨["A", "C"], []⟩
     [⟨["A", "B"], []⟩] [] ["A"] "B" 0 1 (by decide) (by decide)⟩

/-! ## Pipeline branch lemmas -/

/-- The validation loop succeeds when every frame matches the template. -/
lemma validateSchemas_ok (base : List String) :
    ∀ (fs : List Table) (i : Nat), (∀ f ∈ fs, f.cols = base) →
      summarize_frames.validateSchemas base fs i = .ok () := by
  intro fs
  induction fs with
  | nil => intro i _; rfl
  | cons f fs ih =>
    intro i hall
    have hf : f.cols = base := hall f (List.mem_cons_self f fs)
    simp only [summarize_frames.validateSchemas, if_pos hf]
    exact ih (i + 1) (fun g hg => hall g (List.mem_cons_of_mem f hg))

/-- The key-column presence loop succeeds when every key is a template
column. -/
lemma checkKeys_ok (base : List String) :
    ∀ (ks : List String), (∀ k ∈ ks, k ∈ base) →
      summarize_frames.checkKeys base ks = .ok () := by
  intro ks
  induction ks with
  | nil => intro _; rfl
  | cons k ks ih =>
    intro hall
    have hk : k ∈ base := hall k (List.mem_cons_self k ks)
    simp only [summarize_frames.checkKeys, if_pos hk]
    exact ih (fun g hg => hall g (List.mem_cons_of_mem k hg))

/-- When validation passes and the window filter leaves no rows, the run
returns the zero-row table whose columns are the key columns, together
with the template column list. -/
lemma summarize_frames_empty_filtered (pdate : Cell → Option Int) (f0 : Table)
    (rest : List Table) (keys : List String) (dcol : String) (s e : Int)
    (hall : ∀ f ∈ rest, f.cols = f0.cols) (hkeys : ∀ k ∈ keys, k ∈ f0.cols)
    (hdate : dcol ∈ f0.cols)
    (hemp : filteredOf pdate f0.cols dcol s e (f0 :: rest) = []) :
    summarize_frames pdate (f0 :: rest) keys dcol s e = .ok (⟨keys, []⟩, f0.cols) := by
  simp only [summarize_frames, validateSchemas_ok f0.cols rest 2 hall,
    checkKeys_ok f0.cols keys hkeys, if_pos hdate, hemp, List.isEmpty_nil, if_true]

/-- When validation passes, the filter leaves rows, and the key list is
non-empty, the run returns the reindexed aggregation and the template. -/
lemma summarize_frames_agg (pdate : Cell → Option Int) (f0 : Table)
    (rest : List Table) (keys : List String) (dcol : String) (s e : Int)
    (hall : ∀ f ∈ rest, f.cols = f0.cols) (hkeys : ∀ k ∈ keys, k ∈ f0.cols)
    (hdate : dcol ∈ f0.cols)
    (hne : filteredOf pdate f0.cols dcol s e (f0 :: rest) ≠ [])
    (hk : keys ≠ []) :
    summarize_frames pdate (f0 :: rest) keys dcol s e
      = .ok (reindex
          ⟨keys ++ numericCols f0.cols keys dcol
              (filteredOf pdate f0.cols dcol s e (f0 :: rest)),
            aggRows f0.cols keys
              (numericCols f0.cols keys dcol
                (filteredOf pdate f0.cols dcol s e (f0 :: rest)))
              (coerceRows f0.cols
                (numericCols f0.cols keys dcol
                  (filteredOf pdate f0.cols dcol s e (f0 :: rest)))
                (filteredOf pdate f0.cols dcol s e (f0 :: rest)))⟩
          (keys ++ f0.cols.filter (fun c =>
            c ∈ numericCols f0.cols keys dcol
              (filteredOf pdate f0.cols dcol s e (f0 :: rest)) ∧ c ∉ keys)),
        f0.cols) := by
  have h1 : (filteredOf pdate f0.cols dcol s e (f0 :: rest)).isEmpty = false := by
    simpa [List.isEmpty_iff] using hne
  have h2 : keys.isEmpty = false := by
    simpa [List.isEmpty_iff] using hk
  simp only [summarize_frames, validateSchemas_ok f0.cols rest 2 hall,
    checkKeys_ok f0.cols keys hkeys, if_pos hdate, h1, h2, Bool.false_eq_true,
    if_false]

/-! ## C5: output column order -/

/-- Filtering the template for classified-numeric, non-key columns
reproduces the classification list itself: discovery order is template
order, because classification scans the template's non-key, non-date
columns in template order. -/
lemma filter_numeric_eq (base keys : List String) (dcol : String) (rows : List Row) :
    base.filter (fun c => c ∈ numericCols base keys dcol rows ∧ c ∉ keys)
      = numericCols base keys dcol rows := by
  unfold numericCols nonKeyCols
  rw [List.filter_filter]
  apply List.filter_congr
  intro c hc
  by_cases hck : c ∈ keys
  · simp [List.mem_filter, hck]
  · by_cases hcd : c = dcol
    · simp [List.mem_filter, hck, hcd]
    · rw [Bool.eq_iff_iff]
      simp [List.mem_filter, hc, hck, hcd, List.any_eq_true]

/-- C5: on a successful aggregation over a non-empty filtered table, the
output column order is the key columns first, in the order given, followed
by the numeric columns in template order — which coincides with the
classification (discovery) order. -/
theorem output_column_order (pdate : Cell → Option Int) (f0 : Table)
    (rest : List Table) (keys : List String) (dcol : String) (s e : Int)
    (out : Table) (base : List String)
    (hall : ∀ f ∈ rest, f.cols = f0.cols) (hkeys : ∀ k ∈ keys, k ∈ f0.cols)
    (hdate : dcol ∈ f0.cols)
    (hne : filteredOf pdate f0.cols dcol s e (f0 :: rest) ≠ [])
    (hk : keys ≠ [])
    (h : summarize_frames pdate (f0 :: rest) keys dcol s e = .ok (out, base)) :
    out.cols = keys ++ base.filter (fun c =>
        c ∈ numericCols base keys dcol (filteredOf pdate base dcol s e (f0 :: rest))
          ∧ c ∉ keys)
    ∧ base.filter (fun c =>
        c ∈ numericCols base keys dcol (filteredOf pdate base dcol s e (f0 :: rest))
          ∧ c ∉ keys)
      = numericCols base keys dcol (filteredOf pdate base dcol s e (f0 :: rest)) := by
  rw [summarize_frames_agg pdate f0 rest keys dcol s e hall hkeys hdate hne hk] at h
  have hout : out = reindex
      ⟨keys ++ numericCols f0.cols keys dcol
          (filteredOf pdate f0.cols dcol s e (f0 :: rest)),
        aggRows f0.cols keys
          (numericCols f0.cols keys dcol
            (filteredOf pdate f0.cols dcol s e (f0 :: rest)))
          (coerceRows f0.cols
            (numericCols f0.cols keys dcol
              (filteredOf pdate f0.cols dcol s e (f0 :: rest)))
            (filteredOf pdate f0.cols dcol s e (f0 :: rest)))⟩
      (keys ++ f0.cols.filter (fun c =>
        c ∈ numericCols f0.cols keys dcol
          (filteredOf pdate f0.cols dcol s e (f0 :: rest)) ∧ c ∉ keys)) := by
    injection h with h1
    injection h1 with h2 h3
    exact h2.symm
  have hbase : base = f0.cols := by
    injection h with h1
    injection h1 with h2 h3
    exact h3.symm
  subst hbase
  constructor
  · rw [hout]; rfl
  · exact filter_numeric_eq f0.cols keys dcol _

/-- Concrete instantiation of `output_column_order`: template
`[k, d, a, b]` with keys `[k]`, date `d`; both `a` and `b` classify
numeric, and the output columns come out `[k, a, b]`. -/
theorem output_column_order_witness :
    summarize_frames intDate
        [⟨["k", "d", "a", "b"],
          [[Cell.str "x", Cell.str "3", Cell.str "10", Cell.str "5"]]⟩]
        ["k"] "d" 0 9
      = .ok (⟨["k", "a", "b"],
          [[Cell.str "x", Cell.num 10, Cell.num 5]]⟩, ["k", "d", "a", "b"])
    ∧ (⟨["k", "a", "b"],
          [[Cell.str "x", Cell.num 10, Cell.num 5]]⟩ : Table).cols
      = ["k"] ++ (["k", "d", "a", "b"] : List String).filter (fun c =>
          c ∈ numericCols ["k", "d", "a", "b"] ["k"] "d"
            (filteredOf intDate ["k", "d", "a", "b"] "d" 0 9
              [⟨["k", "d", "a", "b"],
                [[Cell.str "x", Cell.str "3", Cell.str "10", Cell.str "5"]]⟩])
            ∧ c ∉ (["k"] : List String)) := by
  have heval : summarize_frames intDate
      [⟨["k", "d", "a", "b"],
        [[Cell.str "x", Cell.str "3", Cell.str "10", Cell.str "5"]]⟩]
      ["k"] "d" 0 9
      = .ok (⟨["k", "a", "b"],
          [[Cell.str "x", Cell.num 10, Cell.num 5]]⟩, ["k", "d", "a", "b"]) := by
    have h3 : intDate (Cell.str "3") = some 3 := by decide
    have t10 : to_number (Cell.str "10") = some 10 := by decide
    have t5 : to_number (Cell.str "5") = some 5 := by decide
    have tx : to_number (Cell.str "x") = none := by decide
    have td : ∀ t : Int, to_number (Cell.date t) = none := fun t => rfl
    simp +decide [summarize_frames, summarize_frames.validateSchemas,
      summarize_frames.checkKeys, filteredOf, filterWindow, dateConvert,
      mapCols, getCell, h3, t10, t5, tx, td, parsedCell, asDate, in_window,
      numericCols, nonKeyCols, coerceRows, aggRows, keyOf,
      sumNonMissing, List.dedup, List.pwFilter, List.filterMap, reindex]
  refine ⟨heval, ?_⟩
  exact (output_column_order intDate
    ⟨["k", "d", "a", "b"],
      [[Cell.str "x", Cell.str "3", Cell.str "10", Cell.str "5"]]⟩
    [] ["k"] "d" 0 9
    ⟨["k", "a", "b"], [[Cell.str "x", Cell.num 10, Cell.num 5]]⟩
    ["k", "d", "a", "b"]
    (by decide) (by decide) (by decide) (by decide) (by decide) heval).1

/-! ## C6: output columns when filtering removes every row -/

/-- C6 counterexample: one source with template `[k, v, d]` whose single
row is dated outside the window — the run succeeds but the output table's
column list is `[k]` (the key columns), not the full template `[k, v, d]`
the claim requires. -/
theorem empty_filter_template_counterexample :
    summarize_frames intDate
        [⟨["k", "v", "d"], [[Cell.str "a", Cell.str "1", Cell.str "9"]]⟩]
        ["k"] "d" 0 5
      = .ok (⟨["k"], []⟩, ["k", "v", "d"])
    ∧ (⟨["k"], []⟩ : Table).cols ≠ ["k", "v", "d"] := by
  decide

/-- C6 (amended): when the time-window filter removes every row, the run
returns a zero-row table whose column list is the key-column list — not
the template column list, which is only returned separately as the second
component. -/
theorem empty_filter_key_columns (pdate : Cell → Option Int) (f0 : Table)
    (rest : List Table) (keys : List String) (dcol : String) (s e : Int)
    (hall : ∀ f ∈ rest, f.cols = f0.cols) (hkeys : ∀ k ∈ keys, k ∈ f0.cols)
    (hdate : dcol ∈ f0.cols)
    (hemp : filteredOf pdate f0.cols dcol s e (f0 :: rest) = []) :
    summarize_frames pdate (f0 :: rest) keys dcol s e
      = .ok (⟨keys, []⟩, f0.cols) :=
  summarize_frames_empty_filtered pdate f0 rest keys dcol s e hall hkeys hdate hemp

/-- Concrete instantiation of `empty_filter_key_columns`. -/
theorem empty_filter_key_columns_witness :
    ((∀ f ∈ ([] : List Table), f.cols = (["k", "v", "d"] : List String))
      ∧ (∀ k ∈ (["k"] : List String), k ∈ (["k", "v", "d"] : List String))
      ∧ "d" ∈ (["k", "v", "d"] : List String)
      ∧ filteredOf intDate ["k", "v", "d"] "d" 0 5
          [⟨["k", "v", "d"], [[Cell.str "a", Cell.str "1", Cell.str "9"]]⟩] = [])
    ∧ summarize_frames intDate
        [⟨["k", "v", "d"], [[Cell.str "a", Cell.str "1", Cell.str "9"]]⟩]
        ["k"] "d" 0 5
      = .ok (⟨["k"], []⟩, ["k", "v", "d"]) :=
  ⟨⟨by decide, by decide, by decide, by decide⟩,
   empty_filter_key_columns intDate
     ⟨["k", "v", "d"], [[Cell.str "a", Cell.str "1", Cell.str "9"]]⟩
     [] ["k"] "d" 0 5 (by decide) (by decide) (by decide) (by decide)⟩

/-! ## C7: empty key-column list -/

/-- C7 counterexample: a run with an empty key-column list and rows
surviving the filter fails with the group-keys error rather than emitting
one global-aggregate row. -/
theorem no_keys_counterexample :
    summarize_frames intDate
        [⟨["k", "d", "v"], [[Cell.str "x", Cell.str "3", Cell.str "10"]]⟩]
        [] "d" 0 10
      = .error .noGroupKeys := by
  decide

/-- C7 (amended): with an empty key-column list and a non-empty filtered
table, the aggregation raises the error pandas produces for
`groupby([], dropna=False)` — no global-aggregate row is emitted. -/
theorem no_keys_error (pdate : Cell → Option Int) (f0 : Table)
    (rest : List Table) (dcol : String) (s e : Int)
    (hall : ∀ f ∈ rest, f.cols = f0.cols) (hdate : dcol ∈ f0.cols)
    (hne : filteredOf pdate f0.cols dcol s e (f0 :: rest) ≠ []) :
    summarize_frames pdate (f0 :: rest) [] dcol s e = .error .noGroupKeys := by
  have h1 : (filteredOf pdate f0.cols dcol s e (f0 :: rest)).isEmpty = false := by
    simpa [List.isEmpty_iff] using hne
  simp only [summarize_frames, validateSchemas_ok f0.cols rest 2 hall,
    checkKeys_ok f0.cols [] (by simp), if_pos hdate, h1, Bool.false_eq_true,
    if_false, List.isEmpty_nil, if_true]

/-- Concrete instantiation of `no_keys_error`. -/
theorem no_keys_error_witness :
    ((∀ f ∈ ([] : List Table), f.cols = (["k", "d", "v"] : List String))
      ∧ "d" ∈ (["k", "d", "v"] : List String)
      ∧ filteredOf intDate ["k", "d", "v"] "d" 0 10
          [⟨["k", "d", "v"], [[Cell.str "x", Cell.str "3", Cell.str "10"]]⟩] ≠ [])
    ∧ summarize_frames intDate
        [⟨["k", "d", "v"], [[Cell.str "x", Cell.str "3", Cell.str "10"]]⟩]
        [] "d" 0 10
      = .error .noGroupKeys :=
  ⟨⟨by decide, by decide, by decide⟩,
   no_keys_error intDate
     ⟨["k", "d", "v"], [[Cell.str "x", Cell.str "3", Cell.str "10"]]⟩
     [] "d" 0 10 (by decide) (by decide) (by decide)⟩

/-! ## C8: start ≥ end is not rejected -/

/-- A degenerate window admits no timestamp. -/
lemma in_window_degenerate (o : Option Int) (s e : Int) (hse : e ≤ s) :
    in_window o s e = false := by
  cases o with
  | none => rfl
  | some t =>
    simp only [in_window, Bool.and_eq_false_iff, decide_eq_false_iff_not, not_le, not_lt]
    omega

/-- With a degenerate window the filter drops every row. -/
lemma filterWindow_degenerate (base : List String) (dcol : String) (s e : Int)
    (rows : List Row) (hse : e ≤ s) :
    filterWindow base dcol s e rows = [] := by
  unfold filterWindow
  have h : ∀ r ∈ rows,
      in_window (asDate (getCell base r dcol)) s e = false := fun r _ =>
    in_window_degenerate _ s e hse
  rw [List.filter_congr h]
  exact List.filter_false rows

/-- C8 counterexample: with `start = 5 ≥ end = 3` on a validated input the
run is not rejected as a configuration error — it returns a (vacuously
empty) successful result, so filtering did proceed. -/
theorem degenerate_window_counterexample :
    (3 : Int) ≤ 5
    ∧ summarize_frames intDate
        [⟨["k", "d", "v"], [[Cell.str "4", Cell.str "4", Cell.str "10"]]⟩]
        ["k"] "d" 5 3
      = .ok (⟨["k"], []⟩, ["k", "d", "v"]) := by
  decide

/-- C8 (amended): a window with `start ≥ end` is not rejected before
filtering; the filter runs, no timestamp satisfies `start ≤ t < end`, every
row is dropped, and the run returns the zero-row key-columns table. -/
theorem degenerate_window_not_rejected (pdate : Cell → Option Int) (f0 : Table)
    (rest : List Table) (keys : List String) (dcol : String) (s e : Int)
    (hall : ∀ f ∈ rest, f.cols = f0.cols) (hkeys : ∀ k ∈ keys, k ∈ f0.cols)
    (hdate : dcol ∈ f0.cols) (hse : e ≤ s) :
    summarize_frames pdate (f0 :: rest) keys dcol s e
      = .ok (⟨keys, []⟩, f0.cols) :=
  summarize_frames_empty_filtered pdate f0 rest keys dcol s e hall hkeys hdate
    (filterWindow_degenerate f0.cols dcol s e _ hse)

/-- Concrete instantiation of `degenerate_window_not_rejected` at
`start = 5`, `end = 3`. -/
theorem degenerate_window_not_rejected_witness :
    ((∀ f ∈ ([] : List Table), f.cols = (["k", "d", "v"] : List String))
      ∧ (∀ k ∈ (["k"] : List String), k ∈ (["k", "d", "v"] : List String))
      ∧ "d" ∈ (["k", "d", "v"] : List String)
      ∧ (3 : Int) ≤ 5)
    ∧ summarize_frames intDate
        [⟨["k", "d", "v"], [[Cell.str "4", Cell.str "4", Cell.str "10"]]⟩]
        ["k"] "d" 5 3
      = .ok (⟨["k"], []⟩, ["k", "d", "v"]) :=
  ⟨⟨by decide, by decide, by decide, by decide⟩,
   degenerate_window_not_rejected intDate
     ⟨["k", "d", "v"], [[Cell.str "4", Cell.str "4", Cell.str "10"]]⟩
     [] ["k"] "d" 5 3 (by decide) (by decide) (by decide) (by decide)⟩

/-! ## C10: header whitespace normalization -/

/-- C10: reading a worksheet strips surrounding whitespace from every
column name, so two sources whose raw headers differ only in surrounding
whitespace produce identical column lists and pass schema validation. -/
theorem read_df_strips_headers (h1 h2 : List String) (r1 r2 : List Row)
    (hsame : h1.map pyStrip = h2.map pyStrip) :
    (read_df h1 r1).cols = h1.map pyStrip
    ∧ (read_df h1 r1).cols = (read_df h2 r2).cols
    ∧ summarize_frames.validateSchemas (read_df h1 r1).cols [read_df h2 r2] 2
        = .ok () := by
  refine ⟨rfl, hsame, ?_⟩
  apply validateSchemas_ok
  intro f hf
  have : f = read_df h2 r2 := by simpa using hf
  rw [this]
  exact hsame.symm

/-- Concrete instantiation of `read_df_strips_headers` on headers
differing only in surrounding whitespace. -/
theorem read_df_strips_headers_witness :
    ((([" A ", "B"] : List String).map pyStrip
        = (["A", "B\t"] : List String).map pyStrip)
      ∧ (read_df [" A ", "B"] []).cols = ["A", "B"])
    ∧ (read_df [" A ", "B"] []).cols = ([" A ", "B"] : List String).map pyStrip
    ∧ (read_df [" A ", "B"] []).cols = (read_df ["A", "B\t"] []).cols
    ∧ summarize_frames.validateSchemas (read_df [" A ", "B"] []).cols
        [read_df ["A", "B\t"] []] 2 = .ok () :=
  ⟨⟨by decide, by decide⟩,
   read_df_strips_headers [" A ", "B"] ["A", "B\t"] [] [] (by decide)⟩

end GSheet
